import Mathlib

/-!
Verification of the Country-API service (`src/main.py`).

The handlers are shallowly embedded: the database table is a `List Country`,
the ORM session during a refresh is a pair of committed rows and pending
(added but unflushed) rows, timestamps are abstract ticks (`ℕ`), JSON numbers
are exact (`Int` / `ℚ`), and the `randint(1000, 2000)` draws are supplied by
an oracle `rand : ℕ → ℕ` indexed by loop iteration.  A `none` fetch result
stands for `requests.exceptions.RequestException`.
-/

namespace CountryAPI

/-- One entry of a record's `currencies` array: a JSON object whose `code`
field may be absent (`currencies[0].get("code")` yields `None`). -/
structure Currency where
  code : Option String
deriving DecidableEq

/-- An upstream country record, holding exactly the fields `refresh_countries`
reads off the JSON dict via `.get`.  `population` is doubly optional: `none`
means the key is absent (so `country_data.get("population", 0)` yields `0`),
`some none` means the key is present with JSON `null` (Python `None`), and
`some (some v)` is an integer value. -/
structure CountryData where
  name : Option String
  capital : Option String
  region : Option String
  population : Option (Option Int)
  flag : Option String
  currencies : List Currency
deriving DecidableEq

/-- A row of the `countries` table.  The surrogate `id` column (assigned by
the store, mentioned by no claim) is not modelled.  `exchange_rate` is
modelled as `Option ℚ` so that SQL `NULL` is distinguishable from the float
`0.0`; the column is declared `nullable=False` and the handler only ever
writes concrete floats, so the code writes `some` values.  `last_updated`
holds the value of the column's `default=datetime.now(timezone.utc)` /
`onupdate=datetime.now(timezone.utc)`: both arguments were *evaluated once at
module import*, so inserts and updates stamp the same constant, modelled as
the parameter `importTime`. -/
structure Country where
  name : String
  capital : Option String
  region : Option String
  population : Int
  currency_code : String
  exchange_rate : Option ℚ
  estimated_gdp : ℚ
  flag_url : Option String
  last_updated : ℕ
deriving DecidableEq

/-- Python truthiness of an optional string: `None` and `""` are falsy. -/
def truthyStr : Option String → Bool
  | none => false
  | some s => !(s == "")

/-- `exchange_rates.get(code)` on the FX table. -/
def lookupRate (exchange_rates : List (String × ℚ)) (code : String) : Option ℚ :=
  (exchange_rates.find? (fun p => p.1 == code)).map (fun p => p.2)

/-- SQL `LIKE` matching of a pattern against a text, both given as character
lists: `%` matches any (possibly empty) sequence, `_` any single character,
anything else itself.  The `%` case succeeds iff the rest of the pattern
matches some suffix of the text. -/
def likeMatch : List Char → List Char → Bool
  | [], cs => cs.isEmpty
  | p :: ps, cs =>
    if p == '%' then
      cs.tails.any (likeMatch ps)
    else
      match cs with
      | [] => false
      | c :: cs2 => (p == '_' || p == c) && likeMatch ps cs2

/-- SQLAlchemy's `column.ilike(pattern)`: case-insensitive `LIKE`. -/
def ilike (value pattern : String) : Bool :=
  likeMatch (pattern.data.map Char.toLower) (value.data.map Char.toLower)

/-- Case-insensitive equality of two strings — the specification's notion of
a name match.  Compare with the code's `ilike`, which additionally interprets
the `LIKE` wildcards `%` and `_`. -/
def ciMatch (a b : String) : Bool :=
  a.data.map Char.toLower == b.data.map Char.toLower

/-- The (lower-cased) characters of `s` contain no `LIKE` wildcard. -/
def noWildcards (s : String) : Bool :=
  (s.data.map Char.toLower).all (fun c => !(c == '%') && !(c == '_'))

/-- `currencies[0].get("code")` guarded by `if currencies and len(currencies) > 0`. -/
def firstCurrencyCode : List Currency → Option String
  | [] => none
  | c :: _ => c.code

/-- The triple of values computed for one record by lines 96–117 of
`refresh_countries`. -/
structure DerivedFields where
  currency_code : String
  exchange_rate : ℚ
  estimated_gdp : ℚ
deriving DecidableEq

/-- Lines 96–117: start from `("NOC", 0.0, 0.0)`; if the first currency's
code is truthy, store it and look up its rate; a truthy (non-zero) rate is
stored together with `population * random_multiplier / rate`, otherwise rate
and GDP stay `0.0`. -/
def deriveFields (exchange_rates : List (String × ℚ)) (random_multiplier : ℕ)
    (population : Int) (currencies : List Currency) : DerivedFields :=
  let country_currency_code := firstCurrencyCode currencies
  if truthyStr country_currency_code then
    let code := country_currency_code.getD ""
    match lookupRate exchange_rates code with
    | some rate =>
      if rate ≠ 0 then
        { currency_code := code, exchange_rate := rate,
          estimated_gdp := (population : ℚ) * (random_multiplier : ℚ) / rate }
      else
        { currency_code := code, exchange_rate := 0, estimated_gdp := 0 }
    | none => { currency_code := code, exchange_rate := 0, estimated_gdp := 0 }
  else
    { currency_code := "NOC", exchange_rate := 0, estimated_gdp := 0 }

/-- `country_data.get("population", 0)`: an absent key defaults to `0`, an
explicit JSON `null` comes through as Python `None`. -/
def getPopulation (country_data : CountryData) : Option Int :=
  match country_data.population with
  | none => some 0
  | some v => v

/-- Line 91's guard `if not name or population is None`. -/
def skipsRecord (country_data : CountryData) : Bool :=
  !truthyStr country_data.name || (getPopulation country_data).isNone

/-- The ORM session mid-refresh: rows already in the table plus rows added
via `db.add` but not yet flushed.  The session is created with
`autoflush=False`, so queries issued during the loop see only `committed`. -/
structure SessionState where
  committed : List Country
  pending : List Country
deriving DecidableEq

/-- Rewrite the first row satisfying `p` (the `.first()` of the ilike query)
with `f`, leaving every other row unchanged. -/
def updateFirst (p : Country → Bool) (f : Country → Country) : List Country → List Country
  | [] => []
  | row :: rest => if p row then f row :: rest else row :: updateFirst p f rest

/-- Lines 122–129: overwrite the data fields of an existing row (the name is
left as it was); the column's `onupdate` constant stamps `importTime`. -/
def applyFields (importTime : ℕ) (country_data : CountryData) (population : Int)
    (flds : DerivedFields) (row : Country) : Country :=
  { row with
    capital := country_data.capital
    region := country_data.region
    population := population
    currency_code := flds.currency_code
    exchange_rate := some flds.exchange_rate
    estimated_gdp := flds.estimated_gdp
    flag_url := country_data.flag
    last_updated := importTime }

/-- Lines 132–141: the row constructed for a new country; the column default
stamps `importTime`. -/
def newCountry (importTime : ℕ) (name : String) (country_data : CountryData)
    (population : Int) (flds : DerivedFields) : Country :=
  { name := name
    capital := country_data.capital
    region := country_data.region
    population := population
    currency_code := flds.currency_code
    exchange_rate := some flds.exchange_rate
    estimated_gdp := flds.estimated_gdp
    flag_url := country_data.flag
    last_updated := importTime }

/-- One iteration of the `for country_data in countries_data` loop
(lines 82–142).  `random_multiplier` is this iteration's `randint(1000, 2000)`
draw. -/
def processRecord (importTime : ℕ) (exchange_rates : List (String × ℚ))
    (random_multiplier : ℕ) (st : SessionState) (country_data : CountryData) :
    SessionState :=
  if skipsRecord country_data then st
  else
    let name := country_data.name.getD ""
    let population := (getPopulation country_data).getD 0
    let flds := deriveFields exchange_rates random_multiplier population
      country_data.currencies
    if st.committed.any (fun row => ilike row.name name) then
      { committed := updateFirst (fun row => ilike row.name name)
          (applyFields importTime country_data population flds) st.committed
        pending := st.pending }
    else
      { committed := st.committed
        pending := st.pending ++
          [newCountry importTime name country_data population flds] }

/-- The whole loop; `rand i` is the multiplier drawn at iteration `i`. -/
def runRecords (importTime : ℕ) (exchange_rates : List (String × ℚ))
    (rand : ℕ → ℕ) : ℕ → List CountryData → SessionState → SessionState
  | _, [], st => st
  | i, country_data :: rest, st =>
    runRecords importTime exchange_rates rand (i + 1) rest
      (processRecord importTime exchange_rates (rand i) st country_data)

/-- `db.commit()`: pending rows are flushed into the table. -/
def commitSession (st : SessionState) : List Country :=
  st.committed ++ st.pending

/-- The table after the data part of a refresh (loop plus commit). -/
def refreshDb (importTime : ℕ) (exchange_rates : List (String × ℚ))
    (rand : ℕ → ℕ) (countries_data : List CountryData) (db : List Country) :
    List Country :=
  commitSession
    (runRecords importTime exchange_rates rand 0 countries_data
      { committed := db, pending := [] })

/-- An `HTTPException`'s payload: status code plus the `detail` dict's
`error` and (optional) `details` entries. -/
structure HTTPError where
  status : ℕ
  error : String
  details : Option String
deriving DecidableEq

/-- The body returned by a successful refresh. -/
structure RefreshResponse where
  message : String
  last_refreshed_at : Option ℕ
deriving DecidableEq

/-- `db.query(Country).order_by(Country.last_updated.desc()).first()`'s
timestamp: the greatest `last_updated` present, `none` on an empty table. -/
def lastRefreshedAt (rows : List Country) : Option ℕ :=
  rows.foldl
    (fun acc row =>
      match acc with
      | none => some row.last_updated
      | some t => some (max t row.last_updated))
    none

/-- The `POST /countries/refresh` handler (lines 52–158).  The two upstream
fetches are parameters; `none` stands for a `RequestException` (connection
failure, timeout or error status).  `imageRenderOk` tells whether
`_get_summary_image` runs without raising; the call sits in a
`try/except` that only prints, after `db.commit()`.  Returns the table after
the request, whether the summary image file was rewritten, and the HTTP
outcome.  On an upstream failure the handler raises before touching the
session, so the table comes back unchanged. -/
def refresh_countries (importTime : ℕ)
    (countriesFetch : Option (List CountryData))
    (ratesFetch : Option (List (String × ℚ))) (rand : ℕ → ℕ)
    (imageRenderOk : Bool) (db : List Country) :
    List Country × Bool × Except HTTPError RefreshResponse :=
  match countriesFetch with
  | none =>
    (db, false, Except.error
      { status := 503, error := "External data source unavailable",
        details := some "Could not fetch data from restcountries.com" })
  | some countries_data =>
    match ratesFetch with
    | none =>
      (db, false, Except.error
        { status := 503, error := "External data source unavailable",
          details := some "Could not fetch data from open.er-api.com" })
    | some exchange_rates =>
      let db2 := refreshDb importTime exchange_rates rand countries_data db
      (db2, imageRenderOk, Except.ok
        { message := "Database refreshed with " ++ toString db2.length
            ++ " countries."
          last_refreshed_at := lastRefreshedAt db2 })

/-- The four admissible values of the `sort` query parameter. -/
def sortKeys : List String :=
  ["name_asc", "name_desc", "gdp_asc", "gdp_desc"]

/-- Insert into a sorted list, used to model `order_by`. -/
def insertLe (le : Country → Country → Bool) (x : Country) :
    List Country → List Country
  | [] => [x]
  | y :: ys => if le x y then x :: y :: ys else y :: insertLe le x ys

/-- Sort by the boolean comparison `le`, modelling `order_by` on one key. -/
def orderBy (le : Country → Country → Bool) : List Country → List Country
  | [] => []
  | x :: xs => insertLe le x (orderBy le xs)

/-- The `GET /countries` handler (lines 161–210): optional ilike filters on
region and currency code, optional sort, then the validation check on `sort`
(`if sort is not None and sort not in [...]` raises 400). -/
def get_countries (db : List Country) (region currency sort : Option String) :
    Except HTTPError (List Country) :=
  let q1 := if truthyStr region then
      db.filter (fun row =>
        match row.region with
        | some s => ilike s (region.getD "")
        | none => false)
    else db
  let q2 := if truthyStr currency then
      q1.filter (fun row => ilike row.currency_code (currency.getD ""))
    else q1
  let q3 := if truthyStr sort then
      if sort == some "name_asc" then
        orderBy (fun a b => !(decide (b.name < a.name))) q2
      else if sort == some "name_desc" then
        orderBy (fun a b => !(decide (a.name < b.name))) q2
      else if sort == some "gdp_asc" then
        orderBy (fun a b => decide (a.estimated_gdp ≤ b.estimated_gdp)) q2
      else if sort == some "gdp_desc" then
        orderBy (fun a b => decide (b.estimated_gdp ≤ a.estimated_gdp)) q2
      else q2
    else q2
  if sort.isSome && !(sortKeys.contains (sort.getD "")) then
    Except.error
      { status := 400, error := "Validation failed",
        details := some
          "Invalid sort parameter. Use one of: name_asc, name_desc, gdp_asc, gdp_desc." }
  else
    Except.ok q3

/-- The 404 payload shared by the name lookup and the delete. -/
def notFoundErr : HTTPError :=
  { status := 404, error := "Country not found", details := none }

/-- The `GET /countries/{country_name}` handler (lines 220–242). -/
def get_country_by_name (db : List Country) (country_name : String) :
    Except HTTPError Country :=
  match db.find? (fun row => ilike row.name country_name) with
  | none => Except.error notFoundErr
  | some country => Except.ok country

/-- The `DELETE /countries/{country_name}` handler (lines 245–259): 404 when
the ilike query finds nothing, otherwise `query.delete()` removes every
matching row and commits.  Returns the table after the request and the HTTP
outcome. -/
def delete_country_by_name (db : List Country) (country_name : String) :
    List Country × Except HTTPError String :=
  match db.find? (fun row => ilike row.name country_name) with
  | none => (db, Except.error notFoundErr)
  | some _ =>
    (db.filter (fun row => !(ilike row.name country_name)),
     Except.ok ("Country '" ++ country_name ++ "' deleted successfully."))

/-- The upsert of one record into session `st` produced `st'` by touching a
single row satisfying `P`: either exactly one new row was added to the
pending list, or exactly one committed row was rewritten in place. -/
def touchedRowSat (st st' : SessionState) (P : Country → Prop) : Prop :=
  (∃ row, P row ∧ st'.committed = st.committed ∧
    st'.pending = st.pending ++ [row])
  ∨ (∃ l1 r l2 row, st.committed = l1 ++ r :: l2 ∧ P row ∧
      st'.committed = l1 ++ row :: l2 ∧ st'.pending = st.pending)

/-- `query.filter(Country.name.ilike(nm)).first() is not None` on a row set. -/
def matchedName (rows : List Country) (nm : String) : Bool :=
  rows.any (fun row => ilike row.name nm)

deriving instance DecidableEq for Except

/-- A concrete stored row used by witnesses and counterexamples. -/
def franceRow : Country :=
  { name := "France", capital := none, region := none, population := 5,
    currency_code := "EUR", exchange_rate := some 1, estimated_gdp := 100,
    flag_url := none, last_updated := 0 }

/-- A concrete upstream record with a known currency. -/
def testlandRec : CountryData :=
  { name := some "Testland", capital := none, region := none,
    population := some (some 1000000), flag := none,
    currencies := [{ code := some "TST" }] }

/-- A concrete upstream record whose currency has no FX entry. -/
def zedlandRec : CountryData :=
  { name := some "Zedland", capital := none, region := none,
    population := some (some 5), flag := none,
    currencies := [{ code := some "ZZZ" }] }

/-- A concrete upstream record whose `population` key is absent. -/
def atlantisRec : CountryData :=
  { name := some "Atlantis", capital := none, region := none,
    population := none, flag := none, currencies := [] }

/-- A concrete upstream record whose `population` key holds JSON `null`. -/
def nullPopRec : CountryData :=
  { name := some "Nowhere", capital := none, region := none,
    population := some none, flag := none, currencies := [] }

/-! ### Lemmas about `LIKE` matching -/

theorem likeMatch_self (l : List Char) : likeMatch l l = true := by
  induction l with
  | nil => rfl
  | cons p ps ih =>
    by_cases hp : p = '%'
    · subst hp
      have hmem : ps ∈ ('%' :: ps).tails := by
        rw [List.mem_tails]
        exact ⟨['%'], rfl⟩
      have hany : (('%' :: ps).tails).any (likeMatch ps) = true :=
        List.any_eq_true.mpr ⟨ps, hmem, ih⟩
      simpa [likeMatch] using hany
    · have hb : (p == '%') = false := by simp [hp]
      simp [likeMatch, hb, ih]

theorem ilike_self (s : String) : ilike s s = true :=
  likeMatch_self _

/-- A wildcard-free pattern `LIKE`-matches exactly itself. -/
theorem likeMatch_noWild (ps : List Char)
    (h : ps.all (fun c => !(c == '%') && !(c == '_')) = true) (cs : List Char) :
    (likeMatch ps cs = true ↔ ps = cs) := by
  induction ps generalizing cs with
  | nil => cases cs <;> simp [likeMatch]
  | cons p ps ih =>
    simp only [List.all_cons, Bool.and_eq_true, Bool.not_eq_true'] at h
    obtain ⟨⟨hp1, hp2⟩, hall⟩ := h
    cases cs with
    | nil =>
      simp only [likeMatch]
      rw [if_neg (by simp [hp1])]
      simp
    | cons c cs =>
      simp only [likeMatch]
      rw [if_neg (by simp [hp1])]
      simp only [hp2, Bool.false_or, Bool.and_eq_true, beq_iff_eq,
        List.cons.injEq]
      rw [ih hall]

/-- On a wildcard-free argument the code's `ilike` coincides with plain
case-insensitive equality of names. -/
theorem ilike_eq_ciMatch (pat : String) (h : noWildcards pat = true)
    (v : String) : ilike v pat = ciMatch v pat := by
  rw [Bool.eq_iff_iff, ilike, ciMatch, beq_iff_eq,
    likeMatch_noWild _ h]
  exact eq_comm

/-! ### Claim C1 -/

/-- Claim C1: if either upstream fetch fails, refresh aborts with a 503 whose
detail names the failed upstream, and the store comes back unchanged — no
writes happen before both fetches have succeeded. -/
theorem refresh_upstream_failure_aborts_503 (importTime : ℕ)
    (ratesFetch : Option (List (String × ℚ))) (rand : ℕ → ℕ)
    (imageRenderOk : Bool) (db : List Country) :
    (refresh_countries importTime none ratesFetch rand imageRenderOk db =
      (db, false, Except.error
        { status := 503, error := "External data source unavailable",
          details := some "Could not fetch data from restcountries.com" })) ∧
    (∀ countries_data,
      refresh_countries importTime (some countries_data) none rand
          imageRenderOk db =
        (db, false, Except.error
          { status := 503, error := "External data source unavailable",
            details := some "Could not fetch data from open.er-api.com" })) :=
  ⟨rfl, fun _ => rfl⟩

/-! ### Claim C9 -/

/-- Claim C9: a failure of the summary-image step does not roll the data
back — the commit has already happened, the response still carries the row
count and latest timestamp, and except for the image file nothing differs
from a successful render: the exception is swallowed. -/
theorem image_failure_swallowed_data_committed (importTime : ℕ)
    (countries_data : List CountryData) (exchange_rates : List (String × ℚ))
    (rand : ℕ → ℕ) (db : List Country) :
    (refresh_countries importTime (some countries_data) (some exchange_rates)
        rand false db =
      (refreshDb importTime exchange_rates rand countries_data db, false,
        Except.ok
          { message := "Database refreshed with " ++
              toString (refreshDb importTime exchange_rates rand countries_data
                db).length ++ " countries."
            last_refreshed_at := lastRefreshedAt
              (refreshDb importTime exchange_rates rand countries_data db) })) ∧
    ((refresh_countries importTime (some countries_data) (some exchange_rates)
        rand false db).1 =
      (refresh_countries importTime (some countries_data) (some exchange_rates)
        rand true db).1) ∧
    ((refresh_countries importTime (some countries_data) (some exchange_rates)
        rand false db).2.2 =
      (refresh_countries importTime (some countries_data) (some exchange_rates)
        rand true db).2.2) :=
  ⟨rfl, rfl, rfl⟩

/-! ### Claim C7 -/

/-- Claim C7: a `sort` value outside `{name_asc, name_desc, gdp_asc,
gdp_desc}` makes the list endpoint answer a 400 validation error, while any
value inside the set (or an absent `sort`) does not error. -/
theorem invalid_sort_validation_error (db : List Country)
    (region currency : Option String) :
    (∀ s, s ∉ sortKeys →
      get_countries db region currency (some s) = Except.error
        { status := 400, error := "Validation failed",
          details := some
            "Invalid sort parameter. Use one of: name_asc, name_desc, gdp_asc, gdp_desc." }) ∧
    (∀ sort, (sort = none ∨ ∃ s, sort = some s ∧ s ∈ sortKeys) →
      ∃ rows, get_countries db region currency sort = Except.ok rows) := by
  constructor
  · intro s hs
    have hc : sortKeys.contains s = false := by
      rw [← Bool.not_eq_true, List.contains, List.elem_iff]
      exact hs
    simp [get_countries, hc, hs]
  · intro sort hsort
    rcases hsort with h | ⟨s, hs, hmem⟩
    · subst h
      exact ⟨_, rfl⟩
    · subst hs
      rcases hres : get_countries db region currency (some s) with e | rows
      · exact absurd hres (by simp [get_countries, hmem])
      · exact ⟨rows, rfl⟩

/-- Witness for C7 at concrete inputs: `"bogus"` is rejected with a 400 and
`"name_asc"` is accepted. -/
theorem invalid_sort_validation_error_witness :
    (get_countries [franceRow] none none (some "bogus") = Except.error
      { status := 400, error := "Validation failed",
        details := some
          "Invalid sort parameter. Use one of: name_asc, name_desc, gdp_asc, gdp_desc." }) ∧
    (∃ rows, get_countries [franceRow] none none (some "name_asc") =
      Except.ok rows) :=
  ⟨(invalid_sort_validation_error [franceRow] none none).1 "bogus" (by decide),
   (invalid_sort_validation_error [franceRow] none none).2 (some "name_asc")
     (Or.inr ⟨"name_asc", rfl, by decide⟩)⟩

/-! ### Claim C8 -/

/-- Counterexample to C8 as stated: the request name `"%"` (reachable as the
percent-encoded path segment `%25`) matches no stored name
case-insensitively, yet the lookup returns the row instead of a 404 and the
delete removes it, because `ilike` interprets `%` as a wildcard. -/
theorem lookup_by_name_wildcard_cex :
    ciMatch franceRow.name "%" = false ∧
    get_country_by_name [franceRow] "%" = Except.ok franceRow ∧
    delete_country_by_name [franceRow] "%" =
      ([], Except.ok "Country '%' deleted successfully.") :=
  ⟨by decide, by decide, by decide⟩

/-- Claim C8 (amended: for request names containing no `LIKE` wildcard):
with no case-insensitive match in the store the single-record GET answers 404
and the DELETE answers 404 leaving the store unchanged; with a
case-insensitive match the GET returns a matching stored row and the DELETE
removes every case-insensitive match and reports success. -/
theorem lookup_delete_by_name_no_wildcards (db : List Country) (nm : String)
    (hw : noWildcards nm = true) :
    ((∀ row ∈ db, ciMatch row.name nm = false) →
      get_country_by_name db nm = Except.error notFoundErr ∧
      delete_country_by_name db nm = (db, Except.error notFoundErr)) ∧
    ((∃ row ∈ db, ciMatch row.name nm = true) →
      (∃ c, get_country_by_name db nm = Except.ok c ∧ c ∈ db ∧
        ciMatch c.name nm = true) ∧
      (delete_country_by_name db nm).1 =
        db.filter (fun row => !(ciMatch row.name nm)) ∧
      (∀ row ∈ (delete_country_by_name db nm).1,
        ciMatch row.name nm = false) ∧
      (delete_country_by_name db nm).2 =
        Except.ok ("Country '" ++ nm ++ "' deleted successfully.")) := by
  have hfun : (fun row : Country => ilike row.name nm) =
      (fun row : Country => ciMatch row.name nm) :=
    funext fun row => ilike_eq_ciMatch nm hw row.name
  constructor
  · intro hnone
    have hfind : db.find? (fun row => ilike row.name nm) = none := by
      rw [hfun]
      exact List.find?_eq_none.mpr fun x hx => by simp [hnone x hx]
    constructor
    · rw [get_country_by_name, hfind]
    · rw [delete_country_by_name, hfind]
  · intro hsome
    obtain ⟨row0, hrow0, hmatch0⟩ := hsome
    have hIsSome : (db.find? (fun row => ilike row.name nm)).isSome := by
      rw [hfun]
      exact List.find?_isSome.mpr ⟨row0, hrow0, hmatch0⟩
    obtain ⟨c, hc⟩ := Option.isSome_iff_exists.mp hIsSome
    have hcMem : c ∈ db := List.mem_of_find?_eq_some hc
    have hcMatch0 := List.find?_some hc
    have hcMatch : ilike c.name nm = true := by simpa using hcMatch0
    have hfun2 : (fun row : Country => !(ilike row.name nm)) =
        (fun row : Country => !(ciMatch row.name nm)) :=
      funext fun row => by rw [ilike_eq_ciMatch nm hw]
    have hdel : delete_country_by_name db nm =
        (db.filter (fun row => !(ciMatch row.name nm)),
         Except.ok ("Country '" ++ nm ++ "' deleted successfully.")) := by
      rw [delete_country_by_name, hc, hfun2]
    refine ⟨⟨c, ?_, hcMem, ?_⟩, ?_, ?_, ?_⟩
    · rw [get_country_by_name, hc]
    · rw [← ilike_eq_ciMatch nm hw]
      exact hcMatch
    · rw [hdel]
    · intro row hrow
      rw [hdel] at hrow
      have h2 := (List.mem_filter.mp hrow).2
      simpa using h2
    · rw [hdel]

/-- Witness for the amended C8: `"germany"` is absent from a store holding
only France (404 on GET and DELETE, store untouched); `"france"` matches
case-insensitively (GET finds the row, DELETE removes it). -/
theorem lookup_delete_by_name_no_wildcards_witness :
    (get_country_by_name [franceRow] "germany" = Except.error notFoundErr ∧
     delete_country_by_name [franceRow] "germany" =
       ([franceRow], Except.error notFoundErr)) ∧
    ((∃ c, get_country_by_name [franceRow] "france" = Except.ok c ∧
        c ∈ [franceRow] ∧ ciMatch c.name "france" = true) ∧
     (delete_country_by_name [franceRow] "france").1 =
       [franceRow].filter (fun row => !(ciMatch row.name "france")) ∧
     (∀ row ∈ (delete_country_by_name [franceRow] "france").1,
       ciMatch row.name "france" = false) ∧
     (delete_country_by_name [franceRow] "france").2 =
       Except.ok ("Country '" ++ "france" ++ "' deleted successfully.")) :=
  ⟨(lookup_delete_by_name_no_wildcards [franceRow] "germany" (by decide)).1
      (by decide),
   (lookup_delete_by_name_no_wildcards [franceRow] "france" (by decide)).2
      ⟨franceRow, by decide, by decide⟩⟩

/-! ### Lemmas about the per-record upsert -/

theorem processRecord_skip (it : ℕ) (ER : List (String × ℚ)) (m : ℕ)
    (st : SessionState) (cd : CountryData) (h : skipsRecord cd = true) :
    processRecord it ER m st cd = st := by
  simp [processRecord, h]

theorem processRecord_matched (it : ℕ) (ER : List (String × ℚ)) (m : ℕ)
    (st : SessionState) (cd : CountryData) (h : skipsRecord cd = false)
    (hm : st.committed.any
      (fun row => ilike row.name (cd.name.getD "")) = true) :
    processRecord it ER m st cd =
      { committed := updateFirst (fun row => ilike row.name (cd.name.getD ""))
          (applyFields it cd ((getPopulation cd).getD 0)
            (deriveFields ER m ((getPopulation cd).getD 0) cd.currencies))
          st.committed
        pending := st.pending } := by
  simp [processRecord, h, hm]

theorem processRecord_unmatched (it : ℕ) (ER : List (String × ℚ)) (m : ℕ)
    (st : SessionState) (cd : CountryData) (h : skipsRecord cd = false)
    (hm : st.committed.any
      (fun row => ilike row.name (cd.name.getD "")) = false) :
    processRecord it ER m st cd =
      { committed := st.committed
        pending := st.pending ++ [newCountry it (cd.name.getD "") cd
          ((getPopulation cd).getD 0)
          (deriveFields ER m ((getPopulation cd).getD 0) cd.currencies)] } := by
  simp [processRecord, h, hm]

theorem updateFirst_decomp (p : Country → Bool) (f : Country → Country)
    (l : List Country) (h : l.any p = true) :
    ∃ l1 r l2, l = l1 ++ r :: l2 ∧ (∀ x ∈ l1, p x = false) ∧ p r = true ∧
      updateFirst p f l = l1 ++ f r :: l2 := by
  induction l with
  | nil => simp at h
  | cons row rest ih =>
    by_cases hrow : p row = true
    · exact ⟨[], row, rest, rfl, by simp, hrow, by simp [updateFirst, hrow]⟩
    · have hrowf : p row = false := by simpa using hrow
      have hrest : rest.any p = true := by simpa [hrowf] using h
      obtain ⟨l1, r, l2, he, hl1, hr, hu⟩ := ih hrest
      refine ⟨row :: l1, r, l2, by simp [he], ?_, hr,
        by simp [updateFirst, hrowf, hu]⟩
      intro x hx
      rcases List.mem_cons.mp hx with h1 | h1
      · subst h1
        exact hrowf
      · exact hl1 x h1

theorem touchedRowSat_mono (st st' : SessionState) (P Q : Country → Prop)
    (h : touchedRowSat st st' P) (hPQ : ∀ r, P r → Q r) :
    touchedRowSat st st' Q := by
  rcases h with ⟨row, hP, h1, h2⟩ | ⟨l1, r, l2, row, he, hP, h1, h2⟩
  · exact Or.inl ⟨row, hPQ row hP, h1, h2⟩
  · exact Or.inr ⟨l1, r, l2, row, he, hPQ row hP, h1, h2⟩

/-- Any non-skipped record is upserted: exactly one row is created or exactly
one committed row is rewritten, and in both cases the touched row carries the
derived field values of this record and the import-time stamp. -/
theorem processRecord_touched (it : ℕ) (ER : List (String × ℚ)) (m : ℕ)
    (st : SessionState) (cd : CountryData) (h : skipsRecord cd = false) :
    touchedRowSat st (processRecord it ER m st cd) (fun row =>
      row.population = (getPopulation cd).getD 0 ∧
      row.currency_code =
        (deriveFields ER m ((getPopulation cd).getD 0)
          cd.currencies).currency_code ∧
      row.exchange_rate = some
        (deriveFields ER m ((getPopulation cd).getD 0)
          cd.currencies).exchange_rate ∧
      row.estimated_gdp =
        (deriveFields ER m ((getPopulation cd).getD 0)
          cd.currencies).estimated_gdp ∧
      row.last_updated = it) := by
  by_cases hm : st.committed.any
      (fun row => ilike row.name (cd.name.getD "")) = true
  · obtain ⟨l1, r, l2, he, _, _, hu⟩ := updateFirst_decomp _
      (applyFields it cd ((getPopulation cd).getD 0)
        (deriveFields ER m ((getPopulation cd).getD 0) cd.currencies))
      st.committed hm
    refine Or.inr ⟨l1, r, l2,
      applyFields it cd ((getPopulation cd).getD 0)
        (deriveFields ER m ((getPopulation cd).getD 0) cd.currencies) r,
      he, ⟨rfl, rfl, rfl, rfl, rfl⟩, ?_, ?_⟩
    · rw [processRecord_matched it ER m st cd h hm, hu]
    · rw [processRecord_matched it ER m st cd h hm]
  · have hmf : st.committed.any
        (fun row => ilike row.name (cd.name.getD "")) = false := by
      simpa using hm
    refine Or.inl ⟨newCountry it (cd.name.getD "") cd
        ((getPopulation cd).getD 0)
        (deriveFields ER m ((getPopulation cd).getD 0) cd.currencies),
      ⟨rfl, rfl, rfl, rfl, rfl⟩, ?_, ?_⟩
    · rw [processRecord_unmatched it ER m st cd h hmf]
    · rw [processRecord_unmatched it ER m st cd h hmf]

/-! ### Claim C10 -/

/-- Claim C10: the GDP computation divides only under the truthiness guard
`if rate:`, so an FX table entry of exactly `0` takes the same branch as a
missing entry — the derived values are `exchange_rate` `0.0` and
`estimated_gdp` `0.0`, identical to what any table without the code yields. -/
theorem zero_rate_treated_as_missing (ER : List (String × ℚ)) (m : ℕ)
    (p : Int) (currencies : List Currency) (code : String)
    (hcode : firstCurrencyCode currencies = some code)
    (hzero : lookupRate ER code = some 0) :
    (deriveFields ER m p currencies).exchange_rate = 0 ∧
    (deriveFields ER m p currencies).estimated_gdp = 0 ∧
    (∀ ER2, lookupRate ER2 code = none →
      deriveFields ER m p currencies = deriveFields ER2 m p currencies) := by
  by_cases hc : code = ""
  · subst hc
    refine ⟨?_, ?_, ?_⟩ <;>
      simp [deriveFields, hcode, truthyStr]
  · have ht : truthyStr (some code) = true := by simp [truthyStr, hc]
    refine ⟨?_, ?_, ?_⟩
    · simp [deriveFields, hcode, ht, hzero]
    · simp [deriveFields, hcode, ht, hzero]
    · intro ER2 h2
      simp [deriveFields, hcode, ht, hzero, h2]

/-- Witness for C10 at concrete inputs: an FX table carrying `XAU ↦ 0`
produces exactly what a table without `XAU` produces. -/
theorem zero_rate_treated_as_missing_witness :
    (deriveFields [("XAU", 0)] 1500 7 [{ code := some "XAU" }]).exchange_rate
      = 0 ∧
    (deriveFields [("XAU", 0)] 1500 7 [{ code := some "XAU" }]).estimated_gdp
      = 0 ∧
    deriveFields [("XAU", 0)] 1500 7 [{ code := some "XAU" }] =
      deriveFields [] 1500 7 [{ code := some "XAU" }] := by
  obtain ⟨h1, h2, h3⟩ := zero_rate_treated_as_missing [("XAU", 0)] 1500 7
    [{ code := some "XAU" }] "XAU" (by decide) (by decide)
  exact ⟨h1, h2, h3 [] (by decide)⟩

/-! ### Claim C4 -/

/-- Counterexample to C4 as stated: a record whose currency `ZZZ` has no FX
entry is stored with `exchange_rate = 0.0` — a (non-NULL) float zero, not the
NULL the claim asserts; the column is declared `nullable=False`. -/
theorem missing_rate_not_null_cex :
    (refreshDb 3 [] (fun _ => 1234) [zedlandRec] []).map
      (fun row => row.exchange_rate) = [some 0] ∧
    (refreshDb 3 [] (fun _ => 1234) [zedlandRec] []).map
      (fun row => row.estimated_gdp) = [0] ∧
    (some (0 : ℚ) : Option ℚ) ≠ none :=
  ⟨by decide, by decide, by decide⟩

/-- The derived values when the first currency code is falsy or its rate is
absent from the FX table: rate `0.0`, GDP `0.0`. -/
theorem deriveFields_no_rate (ER : List (String × ℚ)) (m : ℕ) (p : Int)
    (currencies : List Currency)
    (hcur : truthyStr (firstCurrencyCode currencies) = false ∨
      ∃ code, firstCurrencyCode currencies = some code ∧
        lookupRate ER code = none) :
    (deriveFields ER m p currencies).exchange_rate = 0 ∧
    (deriveFields ER m p currencies).estimated_gdp = 0 := by
  rcases hcur with h | ⟨code, hcode, hnone⟩
  · constructor <;> simp [deriveFields, h]
  · by_cases hc : code = ""
    · subst hc
      constructor <;> simp [deriveFields, hcode, truthyStr]
    · have ht : truthyStr (some code) = true := by simp [truthyStr, hc]
      constructor <;> simp [deriveFields, hcode, ht, hnone]

/-- Claim C4 (amended: the stored exchange rate is the non-NULL float `0.0`,
not SQL NULL — the column is `nullable=False` and the handler writes `0.0`):
a refreshed record whose currency code has no FX entry, or that has no
currency at all, is upserted with `exchange_rate` `0.0` and `estimated_gdp`
`0`. -/
theorem missing_rate_zero_stored (it : ℕ) (ER : List (String × ℚ)) (m : ℕ)
    (st : SessionState) (cd : CountryData) (h : skipsRecord cd = false)
    (hcur : truthyStr (firstCurrencyCode cd.currencies) = false ∨
      ∃ code, firstCurrencyCode cd.currencies = some code ∧
        lookupRate ER code = none) :
    touchedRowSat st (processRecord it ER m st cd) (fun row =>
      row.exchange_rate = some 0 ∧ row.estimated_gdp = 0) := by
  have hd := deriveFields_no_rate ER m ((getPopulation cd).getD 0)
    cd.currencies hcur
  refine touchedRowSat_mono _ _ _ _ (processRecord_touched it ER m st cd h) ?_
  intro r hr
  exact ⟨by rw [hr.2.2.1, hd.1], by rw [hr.2.2.2.1, hd.2]⟩

/-- Witness for the amended C4: upserting the Zedland record against an
empty FX table touches a row with rate `0.0` and GDP `0`. -/
theorem missing_rate_zero_stored_witness :
    touchedRowSat { committed := [], pending := [] }
      (processRecord 3 [] 1234 { committed := [], pending := [] } zedlandRec)
      (fun row => row.exchange_rate = some 0 ∧ row.estimated_gdp = 0) :=
  missing_rate_zero_stored 3 [] 1234 { committed := [], pending := [] }
    zedlandRec (by decide) (Or.inr ⟨"ZZZ", by decide, by decide⟩)

/-! ### Claim C5 -/

/-- Counterexample to C5 as stated: the Atlantis record has no `population`
key at all, yet it is not skipped — `get("population", 0)` defaults the
missing key to `0` and the record is inserted with population `0`. -/
theorem missing_population_not_skipped_cex :
    skipsRecord atlantisRec = false ∧
    refreshDb 3 [] (fun _ => 1234) [atlantisRec] [] =
      [{ name := "Atlantis", capital := none, region := none, population := 0,
         currency_code := "NOC", exchange_rate := some 0, estimated_gdp := 0,
         flag_url := none, last_updated := 3 }] :=
  ⟨by decide, by decide⟩

/-- Claim C5 (amended): a record is skipped exactly when its name is falsy
(absent or empty) or its `population` key is present with value `null`; a
skipped record changes nothing, and every other record — including one whose
`population` key is merely absent — is upserted. -/
theorem skip_policy_name_or_null_population (it : ℕ)
    (ER : List (String × ℚ)) (m : ℕ) (st : SessionState) (cd : CountryData) :
    (skipsRecord cd = true ↔
      (truthyStr cd.name = false ∨ cd.population = some none)) ∧
    (skipsRecord cd = true → processRecord it ER m st cd = st) ∧
    (skipsRecord cd = false →
      touchedRowSat st (processRecord it ER m st cd) (fun _ => True)) := by
  refine ⟨?_, processRecord_skip it ER m st cd, ?_⟩
  · cases hp : cd.population with
    | none => simp [skipsRecord, getPopulation, hp]
    | some v =>
      cases v with
      | none => simp [skipsRecord, getPopulation, hp]
      | some n => simp [skipsRecord, getPopulation, hp]
  · intro h
    exact touchedRowSat_mono _ _ _ _ (processRecord_touched it ER m st cd h)
      (fun r _ => trivial)

/-- Witness for the amended C5: a JSON-`null` population is skipped (state
unchanged) while the Atlantis record with an absent population key is
upserted. -/
theorem skip_policy_name_or_null_population_witness :
    processRecord 3 [] 1234 { committed := [], pending := [] } nullPopRec =
      { committed := [], pending := [] } ∧
    touchedRowSat { committed := [], pending := [] }
      (processRecord 3 [] 1234 { committed := [], pending := [] } atlantisRec)
      (fun _ => True) :=
  ⟨(skip_policy_name_or_null_population 3 [] 1234
      { committed := [], pending := [] } nullPopRec).2.1 (by decide),
   (skip_policy_name_or_null_population 3 [] 1234
      { committed := [], pending := [] } atlantisRec).2.2 (by decide)⟩

/-! ### Claim C3 -/

/-- Claim C3: a refreshed record whose currency has a positive FX rate `rate`
is stored with `estimated_gdp = population * m / rate` for the drawn
multiplier `m ∈ [1000, 2000]`; in particular population `1000000` at rate `2`
yields a GDP in `[500000000, 1000000000]`. -/
theorem estimated_gdp_formula (it : ℕ) (ER : List (String × ℚ)) (m : ℕ)
    (st : SessionState) (cd : CountryData) (code : String) (rate : ℚ)
    (p : Int) (h : skipsRecord cd = false) (hp : getPopulation cd = some p)
    (hcode : firstCurrencyCode cd.currencies = some code) (hcne : code ≠ "")
    (hrate : lookupRate ER code = some rate) (hpos : 0 < rate)
    (hm1 : 1000 ≤ m) (hm2 : m ≤ 2000) :
    touchedRowSat st (processRecord it ER m st cd) (fun row =>
      row.exchange_rate = some rate ∧
      row.estimated_gdp = (p : ℚ) * (m : ℚ) / rate ∧
      ((p : ℚ) = 1000000 → rate = 2 →
        (500000000 : ℚ) ≤ row.estimated_gdp ∧
        row.estimated_gdp ≤ 1000000000)) := by
  have hpd : (getPopulation cd).getD 0 = p := by rw [hp]; rfl
  have ht : truthyStr (some code) = true := by simp [truthyStr, hcne]
  have hderive : deriveFields ER m ((getPopulation cd).getD 0) cd.currencies =
      { currency_code := code, exchange_rate := rate,
        estimated_gdp := (p : ℚ) * (m : ℚ) / rate } := by
    rw [hpd]
    simp [deriveFields, hcode, ht, hrate, hpos.ne']
  refine touchedRowSat_mono _ _ _ _ (processRecord_touched it ER m st cd h) ?_
  intro r hr
  obtain ⟨_, _, hex, hgdp, _⟩ := hr
  rw [hderive] at hex hgdp
  refine ⟨hex, hgdp, ?_⟩
  intro hpq hrq
  rw [hgdp, hpq, hrq]
  have hm1Q : (1000 : ℚ) ≤ (m : ℚ) := by exact_mod_cast hm1
  have hm2Q : (m : ℚ) ≤ 2000 := by exact_mod_cast hm2
  constructor
  · rw [le_div_iff₀ (by norm_num : (0 : ℚ) < 2)]
    linarith
  · rw [div_le_iff₀ (by norm_num : (0 : ℚ) < 2)]
    linarith

/-- Witness for C3: the Testland record (population 1000000, currency `TST`)
against the FX table `TST ↦ 2` and multiplier draw 1500. -/
theorem estimated_gdp_formula_witness :
    touchedRowSat { committed := [], pending := [] }
      (processRecord 3 [("TST", 2)] 1500 { committed := [], pending := [] }
        testlandRec)
      (fun row =>
        row.exchange_rate = some 2 ∧
        row.estimated_gdp = ((1000000 : Int) : ℚ) * ((1500 : ℕ) : ℚ) / 2 ∧
        (((1000000 : Int) : ℚ) = 1000000 → (2 : ℚ) = 2 →
          (500000000 : ℚ) ≤ row.estimated_gdp ∧
          row.estimated_gdp ≤ 1000000000)) :=
  estimated_gdp_formula 3 [("TST", 2)] 1500 { committed := [], pending := [] }
    testlandRec "TST" 2 1000000 (by decide) (by decide) (by decide)
    (by decide) (by decide) (by norm_num) (by decide) (by decide)

/-! ### Claim C6 -/

theorem mem_updateFirst (p : Country → Bool) (f : Country → Country)
    (l : List Country) (x : Country) (hx : x ∈ updateFirst p f l) :
    x ∈ l ∨ ∃ r ∈ l, x = f r := by
  induction l with
  | nil => simp [updateFirst] at hx
  | cons row rest ih =>
    by_cases hrow : p row = true
    · rw [updateFirst, if_pos hrow] at hx
      rcases List.mem_cons.mp hx with h1 | h1
      · exact Or.inr ⟨row, List.mem_cons_self _ _, h1⟩
      · exact Or.inl (List.mem_cons_of_mem _ h1)
    · rw [updateFirst, if_neg hrow] at hx
      rcases List.mem_cons.mp hx with h1 | h1
      · exact Or.inl (by simp [h1])
      · rcases ih h1 with h2 | ⟨r, hr, he⟩
        · exact Or.inl (List.mem_cons_of_mem _ h2)
        · exact Or.inr ⟨r, List.mem_cons_of_mem _ hr, he⟩

theorem processRecord_stamp (it : ℕ) (ER : List (String × ℚ)) (m : ℕ)
    (st : SessionState) (cd : CountryData) (db : List Country)
    (hinv : ∀ row ∈ commitSession st, row.last_updated = it ∨ row ∈ db) :
    ∀ row ∈ commitSession (processRecord it ER m st cd),
      row.last_updated = it ∨ row ∈ db := by
  intro row hrow
  by_cases h : skipsRecord cd = true
  · rw [processRecord_skip it ER m st cd h] at hrow
    exact hinv row hrow
  · have hf : skipsRecord cd = false := by simpa using h
    by_cases hm : st.committed.any
        (fun r => ilike r.name (cd.name.getD "")) = true
    · rw [processRecord_matched it ER m st cd hf hm, commitSession] at hrow
      rcases List.mem_append.mp hrow with h1 | h1
      · rcases mem_updateFirst _ _ _ _ h1 with h2 | ⟨r, _, he⟩
        · exact hinv row (by
            rw [commitSession]
            exact List.mem_append.mpr (Or.inl h2))
        · subst he
          exact Or.inl rfl
      · exact hinv row (by
          rw [commitSession]
          exact List.mem_append.mpr (Or.inr h1))
    · have hmf : st.committed.any
          (fun r => ilike r.name (cd.name.getD "")) = false := by
        simpa using hm
      rw [processRecord_unmatched it ER m st cd hf hmf, commitSession] at hrow
      rcases List.mem_append.mp hrow with h1 | h1
      · exact hinv row (by
          rw [commitSession]
          exact List.mem_append.mpr (Or.inl h1))
      · rcases List.mem_append.mp h1 with h2 | h2
        · exact hinv row (by
            rw [commitSession]
            exact List.mem_append.mpr (Or.inr h2))
        · rcases List.mem_singleton.mp h2 with h3
          subst h3
          exact Or.inl rfl

theorem runRecords_stamp (it : ℕ) (ER : List (String × ℚ)) (rand : ℕ → ℕ)
    (l : List CountryData) : ∀ (i : ℕ) (st : SessionState) (db : List Country),
    (∀ row ∈ commitSession st, row.last_updated = it ∨ row ∈ db) →
    ∀ row ∈ commitSession (runRecords it ER rand i l st),
      row.last_updated = it ∨ row ∈ db := by
  induction l with
  | nil =>
    intro i st db hinv
    simpa [runRecords] using hinv
  | cons cd rest ih =>
    intro i st db hinv
    simp only [runRecords]
    exact ih (i + 1) _ db (processRecord_stamp it ER (rand i) st cd db hinv)

/-- Claim C6 (contradicted by the code): every row a refresh creates or
updates carries `last_updated = importTime`, the constant datetime captured
when the module was imported — `default=datetime.now(timezone.utc)` and
`onupdate=datetime.now(timezone.utc)` were *evaluated once* at class
definition time.  The time at which the refresh actually runs is not even an
input of the computation, so the stored timestamps cannot reflect it. -/
theorem refresh_stamps_import_time_constant (it : ℕ)
    (ER : List (String × ℚ)) (rand : ℕ → ℕ) (l : List CountryData)
    (db : List Country) :
    ∀ row ∈ refreshDb it ER rand l db, row.last_updated = it ∨ row ∈ db := by
  intro row hrow
  refine runRecords_stamp it ER rand l 0 { committed := db, pending := [] }
    db ?_ row hrow
  intro r hr
  exact Or.inr (by simpa [commitSession] using hr)

/-- Witness for C6: a store refreshed (at whatever wall-clock moment) from an
import-time constant `3` stamps the created Atlantis row with `3`. -/
theorem refresh_stamps_import_time_constant_witness :
    ({ name := "Atlantis", capital := none, region := none, population := 0,
       currency_code := "NOC", exchange_rate := some 0, estimated_gdp := 0,
       flag_url := none, last_updated := 3 } : Country).last_updated = 3 ∨
    ({ name := "Atlantis", capital := none, region := none, population := 0,
       currency_code := "NOC", exchange_rate := some 0, estimated_gdp := 0,
       flag_url := none, last_updated := 3 } : Country) ∈ ([] : List Country) :=
  refresh_stamps_import_time_constant 3 [] (fun _ => 1234) [atlantisRec] []
    { name := "Atlantis", capital := none, region := none, population := 0,
      currency_code := "NOC", exchange_rate := some 0, estimated_gdp := 0,
      flag_url := none, last_updated := 3 } (by decide)

/-! ### Claim C2 -/

theorem updateFirst_map_name (p : Country → Bool) (f : Country → Country)
    (hf : ∀ r : Country, (f r).name = r.name) (l : List Country) :
    (updateFirst p f l).map (fun r => r.name) = l.map (fun r => r.name) := by
  induction l with
  | nil => rfl
  | cons row rest ih =>
    by_cases h : p row = true
    · simp [updateFirst, h, hf]
    · simp [updateFirst, h, ih]

theorem matchedName_append (l1 l2 : List Country) (nm : String) :
    matchedName (l1 ++ l2) nm = (matchedName l1 nm || matchedName l2 nm) :=
  List.any_append

theorem any_map_name (l : List Country) (p : String → Bool) :
    (l.map (fun r => r.name)).any p = l.any (fun r => p r.name) := by
  induction l with
  | nil => rfl
  | cons row rest ih => simp [ih]

theorem matchedName_eq_names (l1 l2 : List Country) (nm : String)
    (h : l1.map (fun r => r.name) = l2.map (fun r => r.name)) :
    matchedName l1 nm = matchedName l2 nm := by
  have e : ∀ l : List Country, matchedName l nm =
      (l.map (fun r => r.name)).any (fun s => ilike s nm) := by
    intro l
    rw [any_map_name]
    rfl
  rw [e, e, h]

theorem processRecord_committed_names (it : ℕ) (ER : List (String × ℚ))
    (m : ℕ) (st : SessionState) (cd : CountryData) :
    ((processRecord it ER m st cd).committed).map (fun r => r.name) =
      st.committed.map (fun r => r.name) := by
  by_cases h : skipsRecord cd = true
  · rw [processRecord_skip it ER m st cd h]
  · have hf : skipsRecord cd = false := by simpa using h
    by_cases hm : st.committed.any
        (fun row => ilike row.name (cd.name.getD "")) = true
    · rw [processRecord_matched it ER m st cd hf hm]
      exact updateFirst_map_name
        (fun row => ilike row.name (cd.name.getD ""))
        (applyFields it cd ((getPopulation cd).getD 0)
          (deriveFields ER m ((getPopulation cd).getD 0) cd.currencies))
        (fun r => rfl) st.committed
    · have hmf : st.committed.any
          (fun row => ilike row.name (cd.name.getD "")) = false := by
        simpa using hm
      rw [processRecord_unmatched it ER m st cd hf hmf]

theorem processRecord_pending_ext (it : ℕ) (ER : List (String × ℚ)) (m : ℕ)
    (st : SessionState) (cd : CountryData) :
    ∃ ext, (processRecord it ER m st cd).pending = st.pending ++ ext := by
  by_cases h : skipsRecord cd = true
  · exact ⟨[], by rw [processRecord_skip it ER m st cd h]; simp⟩
  · have hf : skipsRecord cd = false := by simpa using h
    by_cases hm : st.committed.any
        (fun row => ilike row.name (cd.name.getD "")) = true
    · exact ⟨[], by rw [processRecord_matched it ER m st cd hf hm]; simp⟩
    · have hmf : st.committed.any
          (fun row => ilike row.name (cd.name.getD "")) = false := by
        simpa using hm
      exact ⟨_, by rw [processRecord_unmatched it ER m st cd hf hmf]⟩

theorem matchedName_mono_process (it : ℕ) (ER : List (String × ℚ)) (m : ℕ)
    (st : SessionState) (cd : CountryData) (nm : String)
    (h : matchedName (commitSession st) nm = true) :
    matchedName (commitSession (processRecord it ER m st cd)) nm = true := by
  have hc : matchedName (processRecord it ER m st cd).committed nm =
      matchedName st.committed nm :=
    matchedName_eq_names _ _ nm (processRecord_committed_names it ER m st cd)
  obtain ⟨ext, hext⟩ := processRecord_pending_ext it ER m st cd
  rw [commitSession, matchedName_append] at h
  rw [commitSession, matchedName_append, hc, hext, matchedName_append]
  rcases Bool.or_eq_true (matchedName st.committed nm)
      (matchedName st.pending nm) ▸ h with h1 | h1
  · simp [h1]
  · simp [h1]

theorem processRecord_self_match (it : ℕ) (ER : List (String × ℚ)) (m : ℕ)
    (st : SessionState) (cd : CountryData) (h : skipsRecord cd = false) :
    matchedName (commitSession (processRecord it ER m st cd))
      (cd.name.getD "") = true := by
  by_cases hm : st.committed.any
      (fun row => ilike row.name (cd.name.getD "")) = true
  · have hc : matchedName (processRecord it ER m st cd).committed
        (cd.name.getD "") = true := by
      rw [matchedName_eq_names _ _ _ (processRecord_committed_names it ER m st cd)]
      exact hm
    rw [commitSession, matchedName_append]
    simp [hc]
  · have hmf : st.committed.any
        (fun row => ilike row.name (cd.name.getD "")) = false := by
      simpa using hm
    rw [processRecord_unmatched it ER m st cd h hmf, commitSession]
    have hone : matchedName [newCountry it (cd.name.getD "") cd
        ((getPopulation cd).getD 0)
        (deriveFields ER m ((getPopulation cd).getD 0) cd.currencies)]
        (cd.name.getD "") = true := by
      simp [matchedName, newCountry, ilike_self]
    rw [matchedName_append, matchedName_append]
    simp [hone]

theorem runRecords_matched_mono (it : ℕ) (ER : List (String × ℚ))
    (rand : ℕ → ℕ) (l : List CountryData) :
    ∀ (i : ℕ) (st : SessionState) (nm : String),
    matchedName (commitSession st) nm = true →
    matchedName (commitSession (runRecords it ER rand i l st)) nm = true := by
  induction l with
  | nil =>
    intro i st nm h
    simpa [runRecords] using h
  | cons cd rest ih =>
    intro i st nm h
    simp only [runRecords]
    exact ih (i + 1) _ nm (matchedName_mono_process it ER (rand i) st cd nm h)

theorem runRecords_self_match (it : ℕ) (ER : List (String × ℚ))
    (rand : ℕ → ℕ) (l : List CountryData) :
    ∀ (i : ℕ) (st : SessionState) (cd : CountryData), cd ∈ l →
    skipsRecord cd = false →
    matchedName (commitSession (runRecords it ER rand i l st))
      (cd.name.getD "") = true := by
  induction l with
  | nil =>
    intro i st cd h
    simp at h
  | cons cd0 rest ih =>
    intro i st cd hmem hskip
    simp only [runRecords]
    rcases List.mem_cons.mp hmem with h1 | h1
    · subst h1
      exact runRecords_matched_mono it ER rand rest (i + 1) _ _
        (processRecord_self_match it ER (rand i) st cd hskip)
    · exact ih (i + 1) _ cd h1 hskip

theorem runRecords_no_insert (it : ℕ) (ER : List (String × ℚ))
    (rand : ℕ → ℕ) (l : List CountryData) :
    ∀ (i : ℕ) (st : SessionState),
    (∀ cd ∈ l, skipsRecord cd = false →
      matchedName st.committed (cd.name.getD "") = true) →
    (runRecords it ER rand i l st).pending = st.pending ∧
    (runRecords it ER rand i l st).committed.map (fun r => r.name) =
      st.committed.map (fun r => r.name) := by
  induction l with
  | nil =>
    intro i st _
    simp [runRecords]
  | cons cd rest ih =>
    intro i st h
    simp only [runRecords]
    by_cases hskip : skipsRecord cd = true
    · rw [processRecord_skip it ER (rand i) st cd hskip]
      exact ih (i + 1) st (fun c hc hs => h c (List.mem_cons_of_mem _ hc) hs)
    · have hf : skipsRecord cd = false := by simpa using hskip
      have hm : st.committed.any
          (fun row => ilike row.name (cd.name.getD "")) = true :=
        h cd (List.mem_cons_self _ _) hf
      rw [processRecord_matched it ER (rand i) st cd hf hm]
      have hnames : (updateFirst
          (fun row => ilike row.name (cd.name.getD ""))
          (applyFields it cd ((getPopulation cd).getD 0)
            (deriveFields ER (rand i) ((getPopulation cd).getD 0)
              cd.currencies)) st.committed).map (fun r => r.name) =
          st.committed.map (fun r => r.name) :=
        updateFirst_map_name
          (fun row => ilike row.name (cd.name.getD ""))
          (applyFields it cd ((getPopulation cd).getD 0)
            (deriveFields ER (rand i) ((getPopulation cd).getD 0)
              cd.currencies))
          (fun r => rfl) st.committed
      obtain ⟨h1, h2⟩ := ih (i + 1)
        { committed := updateFirst
            (fun row => ilike row.name (cd.name.getD ""))
            (applyFields it cd ((getPopulation cd).getD 0)
              (deriveFields ER (rand i) ((getPopulation cd).getD 0)
                cd.currencies)) st.committed
          pending := st.pending }
        (fun c hc hs => by
          rw [matchedName_eq_names _ _ _ hnames]
          exact h c (List.mem_cons_of_mem _ hc) hs)
      exact ⟨h1, by rw [h2]; exact hnames⟩

/-- Claim C2: each non-skipped incoming record either appends exactly one new
row (when no committed row ilike-matches its name) or rewrites exactly the
first ilike-matching committed row; consequently running the refresh again on
the same upstream data (whatever multipliers are drawn) leaves the row count
unchanged. -/
theorem refresh_upsert_unique_and_rowcount_stable :
    (∀ (it : ℕ) (ER : List (String × ℚ)) (m : ℕ) (st : SessionState)
      (cd : CountryData), skipsRecord cd = false →
      ((st.committed.any (fun row => ilike row.name (cd.name.getD "")) = false ∧
        ∃ row, commitSession (processRecord it ER m st cd) =
          commitSession st ++ [row]) ∨
       (∃ l1 r l2, st.committed = l1 ++ r :: l2 ∧
         (∀ x ∈ l1, ilike x.name (cd.name.getD "") = false) ∧
         ilike r.name (cd.name.getD "") = true ∧
         (processRecord it ER m st cd).committed =
           l1 ++ applyFields it cd ((getPopulation cd).getD 0)
             (deriveFields ER m ((getPopulation cd).getD 0) cd.currencies) r
             :: l2 ∧
         (processRecord it ER m st cd).pending = st.pending))) ∧
    (∀ (it : ℕ) (ER : List (String × ℚ)) (rand1 rand2 : ℕ → ℕ)
      (l : List CountryData) (db : List Country),
      (refreshDb it ER rand2 l (refreshDb it ER rand1 l db)).length =
        (refreshDb it ER rand1 l db).length) := by
  constructor
  · intro it ER m st cd h
    by_cases hm : st.committed.any
        (fun row => ilike row.name (cd.name.getD "")) = true
    · obtain ⟨l1, r, l2, he, hl1, hr, hu⟩ := updateFirst_decomp _
        (applyFields it cd ((getPopulation cd).getD 0)
          (deriveFields ER m ((getPopulation cd).getD 0) cd.currencies))
        st.committed hm
      refine Or.inr ⟨l1, r, l2, he, hl1, hr, ?_, ?_⟩
      · rw [processRecord_matched it ER m st cd h hm, hu]
      · rw [processRecord_matched it ER m st cd h hm]
    · have hmf : st.committed.any
          (fun row => ilike row.name (cd.name.getD "")) = false := by
        simpa using hm
      refine Or.inl ⟨hmf, newCountry it (cd.name.getD "") cd
        ((getPopulation cd).getD 0)
        (deriveFields ER m ((getPopulation cd).getD 0) cd.currencies), ?_⟩
      rw [processRecord_unmatched it ER m st cd h hmf, commitSession,
        commitSession]
      exact (List.append_assoc _ _ _).symm
  · intro it ER rand1 rand2 l db
    have hprem : ∀ cd ∈ l, skipsRecord cd = false →
        matchedName (SessionState.mk (refreshDb it ER rand1 l db)
          []).committed (cd.name.getD "") = true := by
      intro cd hmem hskip
      exact runRecords_self_match it ER rand1 l 0
        (SessionState.mk db []) cd hmem hskip
    obtain ⟨hp, hc⟩ := runRecords_no_insert it ER rand2 l 0
      (SessionState.mk (refreshDb it ER rand1 l db) []) hprem
    have hlen : (runRecords it ER rand2 0 l
        (SessionState.mk (refreshDb it ER rand1 l db) [])).committed.length =
        (refreshDb it ER rand1 l db).length := by
      have h2 := congrArg List.length hc
      simpa using h2
    show (commitSession (runRecords it ER rand2 0 l
      (SessionState.mk (refreshDb it ER rand1 l db) []))).length = _
    rw [commitSession, List.length_append, hp, hlen]
    simp

/-- Witness for C2 at a concrete input: upserting the Testland record into an
empty session appends exactly one row. -/
theorem refresh_upsert_unique_and_rowcount_stable_witness :
    ((({ committed := [], pending := [] } : SessionState).committed.any
        (fun row => ilike row.name (testlandRec.name.getD "")) = false ∧
      ∃ row, commitSession (processRecord 3 [("TST", 2)] 1500
          { committed := [], pending := [] } testlandRec) =
        commitSession { committed := [], pending := [] } ++ [row]) ∨
     (∃ l1 r l2,
       ({ committed := [], pending := [] } : SessionState).committed =
         l1 ++ r :: l2 ∧
       (∀ x ∈ l1, ilike x.name (testlandRec.name.getD "") = false) ∧
       ilike r.name (testlandRec.name.getD "") = true ∧
       (processRecord 3 [("TST", 2)] 1500 { committed := [], pending := [] }
         testlandRec).committed =
         l1 ++ applyFields 3 testlandRec ((getPopulation testlandRec).getD 0)
           (deriveFields [("TST", 2)] 1500
             ((getPopulation testlandRec).getD 0) testlandRec.currencies) r
           :: l2 ∧
       (processRecord 3 [("TST", 2)] 1500 { committed := [], pending := [] }
         testlandRec).pending =
         ({ committed := [], pending := [] } : SessionState).pending)) :=
  refresh_upsert_unique_and_rowcount_stable.1 3 [("TST", 2)] 1500
    { committed := [], pending := [] } testlandRec (by decide)

end CountryAPI
